import Mathlib

set_option maxRecDepth 400000
set_option maxHeartbeats 1600000

/-!
# Verification of the one-time-code subsystem (`src/index.js`)

Shallow embedding of the code-generation pipeline (SHA-256, HMAC-SHA256,
HOTP-style dynamic truncation), the window clock, the replay ledger and the
`/api/verify-code` handler, together with proofs of the specified properties.

Bytes are `Nat` values kept `< 256` by construction; 32-bit machine words are
`Nat` reduced modulo `2^32` (`w32`) exactly where JavaScript's `>>> 0` /
bit-operator semantics force a 32-bit result.
-/

namespace Aet

/-- Reduce to a 32-bit word, the range JavaScript bit operators work in. -/
def w32 (n : Nat) : Nat := n % 4294967296

/-- 32-bit rotate right (operands are words `< 2^32`). -/
def rotr32 (n x : Nat) : Nat := w32 ((x >>> n) ||| (x <<< (32 - n)))

/-- Big-endian bytes of a 32-bit word. -/
def be32 (x : Nat) : List Nat :=
  [x / 16777216 % 256, x / 65536 % 256, x / 256 % 256, x % 256]

/-- Big-endian bytes of a 64-bit length field (used by SHA-256 padding). -/
def be64 (x : Nat) : List Nat :=
  [x / 72057594037927936 % 256, x / 281474976710656 % 256,
   x / 1099511627776 % 256, x / 4294967296 % 256,
   x / 16777216 % 256, x / 65536 % 256, x / 256 % 256, x % 256]

/-- The SHA-256 round constants. -/
def K256 : List Nat :=
  [1116352408, 1899447441, 3049323471, 3921009573, 961987163,
   1508970993, 2453635748, 2870763221, 3624381080, 310598401,
   607225278, 1426881987, 1925078388, 2162078206, 2614888103,
   3248222580, 3835390401, 4022224774, 264347078, 604807628,
   770255983, 1249150122, 1555081692, 1996064986, 2554220882,
   2821834349, 2952996808, 3210313671, 3336571891, 3584528711,
   113926993, 338241895, 666307205, 773529912, 1294757372,
   1396182291, 1695183700, 1986661051, 2177026350, 2456956037,
   2730485921, 2820302411, 3259730800, 3345764771, 3516065817,
   3600352804, 4094571909, 275423344, 430227734, 506948616,
   659060556, 883997877, 958139571, 1322822218, 1537002063,
   1747873779, 1955562222, 2024104815, 2227730452, 2361852424,
   2428436474, 2756734187, 3204031479, 3329325298]

/-- Working state of a SHA-256 compression: eight 32-bit words. -/
structure Hash8 where
  a : Nat
  b : Nat
  c : Nat
  d : Nat
  e : Nat
  f : Nat
  g : Nat
  h : Nat

/-- The SHA-256 initial hash value. -/
def H0 : Hash8 :=
  ⟨1779033703, 3144134277, 1013904242, 2773480762,
   1359893119, 2600822924, 528734635, 1541459225⟩

/-- Group a byte list into big-endian 32-bit words (input length a multiple
of 4 after SHA-256 padding; a ragged tail would be dropped). -/
def bytesToWords : List Nat → List Nat
  | b0 :: b1 :: b2 :: b3 :: rest =>
      (b0 * 16777216 + b1 * 65536 + b2 * 256 + b3) :: bytesToWords rest
  | _ => []

/-- Split a word list into 16-word blocks; `fuel` bounds the recursion and is
instantiated with the list length. -/
def chunkWords : Nat → List Nat → List (List Nat)
  | 0, _ => []
  | _ + 1, [] => []
  | fuel + 1, ws => ws.take 16 :: chunkWords fuel (ws.drop 16)

/-- Extend the message schedule: the accumulator holds the schedule so far in
reverse (most recent word first); each step prepends one new word. -/
def msgSchedRev : Nat → List Nat → List Nat
  | 0, acc => acc
  | n + 1, acc =>
      let w2 := acc.getD 1 0
      let w7 := acc.getD 6 0
      let w15 := acc.getD 14 0
      let w16 := acc.getD 15 0
      let s0 := rotr32 7 w15 ^^^ rotr32 18 w15 ^^^ (w15 >>> 3)
      let s1 := rotr32 17 w2 ^^^ rotr32 19 w2 ^^^ (w2 >>> 10)
      msgSchedRev n (w32 (w16 + s0 + w7 + s1) :: acc)

/-- The 64-word message schedule of one 16-word chunk. -/
def schedule (chunk : List Nat) : List Nat :=
  (msgSchedRev 48 chunk.reverse).reverse

/-- One SHA-256 compression round (`kw` pairs the round constant with the
schedule word; bitwise NOT on a 32-bit word is XOR with `0xffffffff`). -/
def sha256Round (st : Hash8) (kw : Nat × Nat) : Hash8 :=
  let S1 := rotr32 6 st.e ^^^ rotr32 11 st.e ^^^ rotr32 25 st.e
  let ch := (st.e &&& st.f) ^^^ ((st.e ^^^ 4294967295) &&& st.g)
  let temp1 := w32 (st.h + S1 + ch + kw.1 + kw.2)
  let S0 := rotr32 2 st.a ^^^ rotr32 13 st.a ^^^ rotr32 22 st.a
  let maj := (st.a &&& st.b) ^^^ (st.a &&& st.c) ^^^ (st.b &&& st.c)
  let temp2 := w32 (S0 + maj)
  ⟨w32 (temp1 + temp2), st.a, st.b, st.c, w32 (st.d + temp1), st.e, st.f, st.g⟩

/-- Compress one 16-word chunk into the running hash value. -/
def compressChunk (H : Hash8) (chunk : List Nat) : Hash8 :=
  let st := (K256.zip (schedule chunk)).foldl sha256Round H
  ⟨w32 (H.a + st.a), w32 (H.b + st.b), w32 (H.c + st.c), w32 (H.d + st.d),
   w32 (H.e + st.e), w32 (H.f + st.f), w32 (H.g + st.g), w32 (H.h + st.h)⟩

/-- SHA-256 padding: append `0x80`, zero bytes up to 56 mod 64, then the
bit length as a 64-bit big-endian integer. -/
def sha256Pad (msg : List Nat) : List Nat :=
  msg ++ 0x80 :: List.replicate ((119 - msg.length % 64) % 64) 0
      ++ be64 (8 * msg.length)

/-- SHA-256 of a byte list (bytes are `Nat` values `< 256`). -/
def sha256 (msg : List Nat) : List Nat :=
  let padded := sha256Pad msg
  let Hf := (chunkWords padded.length (bytesToWords padded)).foldl compressChunk H0
  be32 Hf.a ++ be32 Hf.b ++ be32 Hf.c ++ be32 Hf.d ++
  be32 Hf.e ++ be32 Hf.f ++ be32 Hf.g ++ be32 Hf.h

/-- UTF-8 encoding of one character. -/
def utf8Bytes (c : Char) : List Nat :=
  let n := c.toNat
  if n < 128 then [n]
  else if n < 2048 then [192 ||| n >>> 6, 128 ||| (n &&& 63)]
  else if n < 65536 then
    [224 ||| n >>> 12, 128 ||| (n >>> 6 &&& 63), 128 ||| (n &&& 63)]
  else
    [240 ||| n >>> 18, 128 ||| (n >>> 12 &&& 63),
     128 ||| (n >>> 6 &&& 63), 128 ||| (n &&& 63)]

/-- Model of `Buffer.from(str, 'utf8')`: the UTF-8 bytes of a string. -/
def textToBytes (str : String) : List Nat :=
  str.data.flatMap utf8Bytes

/-- HMAC-SHA256 with block size 64, as implemented by `crypto.createHmac`:
a key longer than one block is hashed first, then zero-padded to the block. -/
def hmacSha256 (keyBytes msgBytes : List Nat) : List Nat :=
  let k := if 64 < keyBytes.length then sha256 keyBytes else keyBytes
  let k0 := k ++ List.replicate (64 - k.length) 0
  sha256 ((k0.map (fun b => b ^^^ 92)) ++
          sha256 ((k0.map (fun b => b ^^^ 54)) ++ msgBytes))

/-- The function `deriveKeyBytes(seed)`: SHA-256 of the UTF-8 seed. -/
def deriveKeyBytes (seed : String) : List Nat :=
  sha256 (textToBytes seed)

/-- The loop body of `numTo8ByteBE`: `buf[i] = num & 0xff; num = Math.floor(num/256)`
for `i = 7 .. 0`, building the buffer back to front.  For the integers the
program handles (`|num| < 2^53`), JavaScript's `num & 0xff` is the
mathematical residue `num mod 256` and `Math.floor(num/256)` is exact floor
division, which `Int.emod`/`Int.fdiv` model directly. -/
def numTo8ByteBEGo : Nat → Int → List Nat → List Nat
  | 0, _, acc => acc
  | k + 1, num, acc => numTo8ByteBEGo k (num.fdiv 256) ((num.emod 256).toNat :: acc)

/-- The function `numTo8ByteBE(num)`: the 8 big-endian bytes of `num mod 2^64`. -/
def numTo8ByteBE (num : Int) : List Nat :=
  numTo8ByteBEGo 8 num []

/-- The offset read in RFC 4226 dynamic truncation: low nibble of the last
byte of the HMAC output. -/
def dtOffset (hmacBuf : List Nat) : Nat :=
  hmacBuf.getD (hmacBuf.length - 1) 0 &&& 0x0f

/-- The function `dynamicTruncate(hmacBuf)`: 31-bit big-endian value extracted at the
dynamic offset.  JavaScript's trailing `>>> 0` is the identity here because
the top bit is masked off, so the value already fits in 31 bits. -/
def dynamicTruncate (hmacBuf : List Nat) : Nat :=
  let offset := dtOffset hmacBuf
  ((hmacBuf.getD offset 0 &&& 0x7f) <<< 24) |||
    (hmacBuf.getD (offset + 1) 0 <<< 16) |||
    (hmacBuf.getD (offset + 2) 0 <<< 8) |||
    hmacBuf.getD (offset + 3) 0

/-- Model of `String(n).padStart(width, c)` on a decimal string. -/
def padStartString (s : String) (width : Nat) (c : Char) : String :=
  ⟨List.replicate (width - s.length) c ++ s.data⟩

/-- The function `totpForCounter(seed, counter, digits = 6)`: the HOTP-style code. -/
def totpForCounter (seed : String) (counter : Int) (digits : Nat := 6) : String :=
  let key := deriveKeyBytes seed
  let msg := numTo8ByteBE counter
  let mac := hmacSha256 key msg
  let bin := dynamicTruncate mac
  padStartString (Nat.repr (bin % 10 ^ digits)) digits '0'

/-- The function `currentWindow(nowMs, stepSec)`: seconds since epoch divided by the step. -/
def currentWindow (nowMs : Nat) (stepSec : Nat) : Nat :=
  nowMs / 1000 / stepSec

/-- Server configuration (`PROCTOR_SEED`, `CODE_STEP_SECONDS`, `DRIFT_STEPS`). -/
structure Config where
  seed : String
  stepSeconds : Nat
  driftSteps : Nat

/-- The value produced by `validCodes`: current window, the accepted code
list, and seconds until the window rolls over. -/
structure CodesResult where
  window : Nat
  codes : List String
  expiresIn : Nat

/-- The function `validCodes(seed, nowMs)`: the three codes for counters
`ctr - DRIFT_STEPS`, `ctr`, `ctr + DRIFT_STEPS` (counter arithmetic is over
the integers, as in JavaScript). -/
def validCodes (cfg : Config) (nowMs : Nat) : CodesResult :=
  let ctr := currentWindow nowMs cfg.stepSeconds
  { window := ctr
    codes := [totpForCounter cfg.seed ((ctr : Int) - cfg.driftSteps),
              totpForCounter cfg.seed (ctr : Int),
              totpForCounter cfg.seed ((ctr : Int) + cfg.driftSteps)]
    expiresIn := cfg.stepSeconds - nowMs / 1000 % cfg.stepSeconds }

/-- One row of the `used_codes` table. -/
structure UsedCode where
  window : Nat
  sid : String
  created_at : Nat
deriving DecidableEq

/-- The `used_codes` table, in insertion order. -/
abbrev Ledger := List UsedCode

/-- Model of `SELECT 1 FROM used_codes WHERE window = ? AND sid = ?`: whether a row
with this primary key exists. -/
def dbLookup (w : Nat) (sid : String) (db : Ledger) : Bool :=
  db.any fun r => r.window == w && r.sid == sid

/-- Model of `INSERT OR IGNORE INTO used_codes ...`: append the row unless its
primary key `(window, sid)` is already present. -/
def insertOrIgnore (r : UsedCode) (db : Ledger) : Ledger :=
  if dbLookup r.window r.sid db then db else db ++ [r]

/-- Responses of `POST /api/verify-code`, by HTTP status and `error` field:
400 `invalid_code`, 500 `server_not_configured`, 409 `already_used`,
401 `invalid_code`, and the 200 success response. -/
inductive Outcome where
  | invalidInput : Outcome
  | serverMisconfigured : Outcome
  | alreadyUsed (window : Nat) (expiresIn : Nat) : Outcome
  | invalidCode (window : Nat) (expiresIn : Nat) : Outcome
  | accepted (window : Nat) (expiresIn : Nat) : Outcome
deriving DecidableEq

/-- The `/api/verify-code` handler, lines 146-169 of `src/index.js`: reject
short input (`!code || typeof code !== 'string' || code.length < 6`, which
for a string is exactly `length < 6`), reject a missing seed, look up the
replay row for `(currentWindow, sid)`, reject codes outside the accepted
list, otherwise record consumption and accept.  Returns the response
together with the resulting table. -/
def verify (cfg : Config) (db : Ledger) (sid : String) (code : String)
    (nowMs : Nat) : Outcome × Ledger :=
  if code.length < 6 then (.invalidInput, db)
  else if cfg.seed = "" then (.serverMisconfigured, db)
  else
    let r := validCodes cfg nowMs
    if dbLookup r.window sid db then (.alreadyUsed r.window r.expiresIn, db)
    else if r.codes.contains code then
      (.accepted r.window r.expiresIn,
       insertOrIgnore ⟨r.window, sid, nowMs⟩ db)
    else (.invalidCode r.window r.expiresIn, db)

/-- Number of ledger rows with primary key `(w, sid)`. -/
def countRecords (w : Nat) (sid : String) (db : Ledger) : Nat :=
  (db.filter fun r => r.window == w && r.sid == sid).length

/-!
## Interleaving model of two concurrent handler invocations

The handler touches the database twice: the `SELECT` on line 156 and the
`INSERT OR IGNORE` on line 167, with only pure computation in between.  Each
call is therefore modelled as (at most) two atomic database actions, and a
schedule decides how the actions of two calls interleave.
-/

/-- Progress of one in-flight handler invocation: not yet at the `SELECT`,
past the `SELECT` (remembering what it saw), or responded. -/
inductive CallState where
  | pending : CallState
  | checked (used : Bool) : CallState
  | responded (out : Outcome) : CallState
deriving DecidableEq

/-- The request data of one in-flight call. -/
structure CallCtx where
  sid : String
  code : String
  now : Nat

/-- One atomic step of a call: from `pending`, run the pure validations and
the `SELECT`; from `checked`, run the rest of the handler, whose only
database action is the `INSERT OR IGNORE` (the handler replies 200 without
consulting the insert's result).  A `responded` call does not move. -/
def callStep (cfg : Config) (ctx : CallCtx) :
    CallState → Ledger → CallState × Ledger
  | .pending, db =>
      if ctx.code.length < 6 then (.responded .invalidInput, db)
      else if cfg.seed = "" then (.responded .serverMisconfigured, db)
      else
        (.checked (dbLookup (validCodes cfg ctx.now).window ctx.sid db), db)
  | .checked used, db =>
      let r := validCodes cfg ctx.now
      if used then (.responded (.alreadyUsed r.window r.expiresIn), db)
      else if r.codes.contains ctx.code then
        (.responded (.accepted r.window r.expiresIn),
         insertOrIgnore ⟨r.window, ctx.sid, ctx.now⟩ db)
      else (.responded (.invalidCode r.window r.expiresIn), db)
  | .responded out, db => (.responded out, db)

/-- Joint state of two concurrent calls and the shared table. -/
structure TwoCalls where
  s1 : CallState
  s2 : CallState
  db : Ledger
deriving DecidableEq

/-- Run a schedule over two calls: `false` steps call 1, `true` steps
call 2. -/
def runSched (cfg : Config) (c1 c2 : CallCtx) : List Bool → TwoCalls → TwoCalls
  | [], st => st
  | b :: rest, st =>
      if b then
        let (s2, db) := callStep cfg c2 st.s2 st.db
        runSched cfg c1 c2 rest { st with s2 := s2, db := db }
      else
        let (s1, db) := callStep cfg c1 st.s1 st.db
        runSched cfg c1 c2 rest { st with s1 := s1, db := db }

/-- The HOTP-style reference computation `computeCode(secret, counter, digits)`,
written directly from the spec's step list (§4.1), to be compared with the
implementation's `totpForCounter`: key = SHA-256(secret); counter encoded as
an 8-byte big-endian unsigned integer; `mac` = HMAC-SHA256(key, counterBytes);
`offset` = low nibble of `mac[31]`; `v` = the big-endian unsigned 32-bit
integer at `mac[offset..offset+3]` with the most-significant bit of the first
byte masked by `0x7F`; result = decimal string of `v mod 10^digits`,
left-zero-padded to `digits` characters. -/
def computeCode (secret : String) (counter : Nat) (digits : Nat) : String :=
  let key := sha256 (textToBytes secret)
  let counterBytes := [counter / 2 ^ 56 % 256, counter / 2 ^ 48 % 256,
    counter / 2 ^ 40 % 256, counter / 2 ^ 32 % 256, counter / 2 ^ 24 % 256,
    counter / 2 ^ 16 % 256, counter / 2 ^ 8 % 256, counter % 256]
  let mac := hmacSha256 key counterBytes
  let offset := mac.getD 31 0 &&& 0x0f
  let v := (mac.getD offset 0 &&& 0x7f) * 2 ^ 24 +
    mac.getD (offset + 1) 0 * 2 ^ 16 + mac.getD (offset + 2) 0 * 2 ^ 8 +
    mac.getD (offset + 3) 0
  padStartString (Nat.repr (v % 10 ^ digits)) digits '0'

/-!
## Arithmetic helpers

JavaScript assembles the truncated 31-bit value with shifts and bitwise
ors of disjoint byte fields; these lemmas relate that to plain arithmetic.
-/

theorem testBit_mul_pow_add_lo {n k y i : Nat} (hi : i < n) :
    Nat.testBit (2 ^ n * k + y) i = Nat.testBit y i := by
  rw [Nat.testBit_to_div_mod, Nat.testBit_to_div_mod]
  have h1 : 2 ^ n * k = 2 ^ i * (2 ^ (n - i) * k) := by
    rw [← Nat.mul_assoc, ← Nat.pow_add]
    congr 2
    omega
  rw [h1, Nat.mul_add_div (Nat.two_pow_pos i)]
  have h2 : 2 ^ (n - i) * k % 2 = 0 := by
    have h3 : (2 : ℕ) ∣ 2 ^ (n - i) * k :=
      Dvd.dvd.mul_right (dvd_pow_self 2 (by omega)) k
    exact Nat.mod_eq_zero_of_dvd h3
  rw [Nat.add_mod, h2]
  simp

theorem testBit_mul_pow_add_hi {n k y i : Nat} (hi : n ≤ i) (hy : y < 2 ^ n) :
    Nat.testBit (2 ^ n * k + y) i = Nat.testBit k (i - n) := by
  rw [Nat.testBit_to_div_mod, Nat.testBit_to_div_mod]
  have h1 : (2 ^ n * k + y) / 2 ^ i = k / 2 ^ (i - n) := by
    have h2 : 2 ^ i = 2 ^ n * 2 ^ (i - n) := by
      rw [← Nat.pow_add]
      congr 1
      omega
    rw [h2, ← Nat.div_div_eq_div_mul, Nat.mul_add_div (Nat.two_pow_pos n),
        Nat.div_eq_of_lt hy, Nat.add_zero]
  rw [h1]

/-- Bitwise or is addition when the low `n` bits of `x` are clear and `y`
fits in them. -/
theorem lor_eq_add_of {n x y : Nat} (hx : x % 2 ^ n = 0) (hy : y < 2 ^ n) :
    x ||| y = x + y := by
  obtain ⟨k, rfl⟩ : 2 ^ n ∣ x := Nat.dvd_of_mod_eq_zero hx
  apply Nat.eq_of_testBit_eq
  intro i
  rcases Nat.lt_or_ge i n with hi | hi
  · rw [Nat.testBit_or, testBit_mul_pow_add_lo hi]
    have hxlo : Nat.testBit (2 ^ n * k) i = false := by
      have h0 := testBit_mul_pow_add_lo (n := n) (k := k) (y := 0) hi
      simpa using h0
    simp [hxlo]
  · rw [Nat.testBit_or, testBit_mul_pow_add_hi hi hy]
    have hylo : Nat.testBit y i = false :=
      Nat.testBit_lt_two_pow
        (lt_of_lt_of_le hy (Nat.pow_le_pow_right (by norm_num) hi))
    have hxhi : Nat.testBit (2 ^ n * k) i = Nat.testBit k (i - n) := by
      have h0 := testBit_mul_pow_add_hi (n := n) (k := k) (y := 0) hi
        (Nat.two_pow_pos n)
      simpa using h0
    simp [hxhi, hylo]

/-!
## Facts about the hash pipeline
-/

/-- SHA-256 always yields 32 bytes. -/
theorem sha256_length (msg : List Nat) : (sha256 msg).length = 32 := by
  simp [sha256, be32]

/-- Every `be32` byte is below 256. -/
theorem be32_bytes_lt (x : Nat) : ∀ b ∈ be32 x, b < 256 := by
  intro b hb
  simp only [be32, List.mem_cons, List.not_mem_nil, or_false] at hb
  rcases hb with h | h | h | h <;> subst h <;> omega

/-- Every SHA-256 output byte is below 256. -/
theorem sha256_bytes_lt (msg : List Nat) : ∀ b ∈ sha256 msg, b < 256 := by
  intro b hb
  simp only [sha256, List.mem_append] at hb
  rcases hb with (((((((h | h) | h) | h) | h) | h) | h) | h) <;>
    exact be32_bytes_lt _ _ h

/-- HMAC-SHA256 always yields 32 bytes. -/
theorem hmacSha256_length (key msg : List Nat) :
    (hmacSha256 key msg).length = 32 :=
  sha256_length _

/-- Every HMAC-SHA256 output byte is below 256. -/
theorem hmacSha256_bytes_lt (key msg : List Nat) :
    ∀ b ∈ hmacSha256 key msg, b < 256 :=
  sha256_bytes_lt _

/-- Reading with default `0` from a list of bytes stays below 256. -/
theorem getD_lt_256 {l : List Nat} (hb : ∀ b ∈ l, b < 256) (i : Nat) :
    l.getD i 0 < 256 := by
  rcases Nat.lt_or_ge i l.length with h | h
  · rw [List.getD_eq_getElem l 0 h]
    exact hb _ (List.getElem_mem h)
  · rw [List.getD_eq_default l 0 (by omega)]
    omega

/-- The truncation offset is a nibble, hence at most 15. -/
theorem dtOffset_le (hmacBuf : List Nat) : dtOffset hmacBuf ≤ 15 :=
  Nat.and_le_right

/-- Assembling four bytes with shifts and ors equals the base-256
big-endian value. -/
theorem four_byte_or (A B C D : Nat) (hB : B < 256) (hC : C < 256)
    (hD : D < 256) :
    (A <<< 24) ||| (B <<< 16) ||| (C <<< 8) ||| D =
      A * 2 ^ 24 + B * 2 ^ 16 + C * 2 ^ 8 + D := by
  rw [Nat.shiftLeft_eq, Nat.shiftLeft_eq, Nat.shiftLeft_eq]
  rw [lor_eq_add_of (n := 24) (x := A * 2 ^ 24) (y := B * 2 ^ 16)
      (Nat.mul_mod_left A (2 ^ 24))
      (lt_of_lt_of_le (mul_lt_mul_of_pos_right hB (by norm_num)) (by norm_num))]
  rw [lor_eq_add_of (n := 16) (x := A * 2 ^ 24 + B * 2 ^ 16) (y := C * 2 ^ 8)
      (by
        have h16 : A * 2 ^ 24 + B * 2 ^ 16 = 2 ^ 16 * (A * 2 ^ 8 + B) := by ring
        rw [h16, Nat.mul_mod_right])
      (lt_of_lt_of_le (mul_lt_mul_of_pos_right hC (by norm_num)) (by norm_num))]
  rw [lor_eq_add_of (n := 8)
      (x := A * 2 ^ 24 + B * 2 ^ 16 + C * 2 ^ 8) (y := D)
      (by
        have h8 : A * 2 ^ 24 + B * 2 ^ 16 + C * 2 ^ 8 =
            2 ^ 8 * (A * 2 ^ 16 + B * 2 ^ 8 + C) := by ring
        rw [h8, Nat.mul_mod_right])
      (by omega)]

/-- On a buffer of genuine bytes, the shift-and-or assembly of
`dynamicTruncate` is the big-endian value of the four bytes at the offset,
with the top bit of the first byte masked. -/
theorem dynamicTruncate_eq_sum {mac : List Nat}
    (hb : ∀ b ∈ mac, b < 256) :
    dynamicTruncate mac =
      (mac.getD (dtOffset mac) 0 &&& 0x7f) * 2 ^ 24 +
      mac.getD (dtOffset mac + 1) 0 * 2 ^ 16 +
      mac.getD (dtOffset mac + 2) 0 * 2 ^ 8 +
      mac.getD (dtOffset mac + 3) 0 := by
  simp only [dynamicTruncate]
  exact four_byte_or _ _ _ _ (getD_lt_256 hb _) (getD_lt_256 hb _)
    (getD_lt_256 hb _)

/-- The eight bytes produced by the `numTo8ByteBE` loop on a non-negative
integer, written out as the big-endian base-256 digits. -/
theorem numTo8ByteBE_ofNat (c : Nat) :
    numTo8ByteBE (c : Int) =
      [c / 2 ^ 56 % 256, c / 2 ^ 48 % 256, c / 2 ^ 40 % 256, c / 2 ^ 32 % 256,
       c / 2 ^ 24 % 256, c / 2 ^ 16 % 256, c / 2 ^ 8 % 256, c % 256] := by
  have hf : ∀ m : Nat, (m : Int).fdiv 256 = ((m / 256 : Nat) : Int) := by
    intro m
    rw [Int.fdiv_eq_ediv _ (by omega), Int.ofNat_ediv]
    rfl
  have he : ∀ m : Nat, ((m : Int).emod 256).toNat = m % 256 :=
    fun _ => rfl
  simp only [numTo8ByteBE, numTo8ByteBEGo, hf, he]
  have hd : ∀ a b : Nat, c / a / b = c / (a * b) := fun a b =>
    Nat.div_div_eq_div_mul c a b
  norm_num [hd]

/-- Padding reaches the requested width (and never truncates). -/
theorem padStartString_length (s : String) (width : Nat) (c : Char) :
    (padStartString s width c).length = max width s.length := by
  simp only [padStartString, String.length, List.length_append,
    List.length_replicate]
  omega

/-- A generated code has exactly `digits` characters (for positive
`digits`). -/
theorem totpForCounter_length (seed : String) (counter : Int) {digits : Nat}
    (hd : 0 < digits) : (totpForCounter seed counter digits).length = digits := by
  have hlt : dynamicTruncate (hmacSha256 (deriveKeyBytes seed)
      (numTo8ByteBE counter)) % 10 ^ digits < 10 ^ digits :=
    Nat.mod_lt _ (pow_pos (by norm_num) digits)
  have hr := Nat.repr_length _ _ hd hlt
  simp only [totpForCounter, padStartString_length]
  omega

/-!
## Claims about the code generator
-/

/-- C5: for every secret and every counter ≥ 0 (and any digit count),
`computeCode` as implemented by `totpForCounter` equals the HOTP-style
reference definition: key = SHA-256(secret), mac = HMAC-SHA256 of the
8-byte big-endian counter, dynamic truncation at `mac[31] & 0x0F` with
the top bit masked, reduced mod `10^digits` and zero-padded. -/
theorem claim5_computeCode_matches_reference (secret : String)
    (counter digits : Nat) :
    totpForCounter secret (counter : Int) digits =
      computeCode secret counter digits := by
  have hb := hmacSha256_bytes_lt (deriveKeyBytes secret)
    (numTo8ByteBE (counter : Int))
  have hlen := hmacSha256_length (deriveKeyBytes secret)
    (numTo8ByteBE (counter : Int))
  have hoff : dtOffset (hmacSha256 (deriveKeyBytes secret)
      (numTo8ByteBE (counter : Int))) =
      (hmacSha256 (deriveKeyBytes secret)
        (numTo8ByteBE (counter : Int))).getD 31 0 &&& 0x0f := by
    simp only [dtOffset, hlen]
  simp only [totpForCounter]
  rw [dynamicTruncate_eq_sum hb, hoff]
  simp only [computeCode, deriveKeyBytes]
  rw [numTo8ByteBE_ofNat]

/-- C7: for every secret, counter, and positive `digits ≤ 9`, the code is a
string of exactly `digits` characters: the left-zero-padded decimal
representation of a value in `[0, 10^digits)`. -/
theorem claim7_fixed_width (seed : String) (counter : Int) (digits : Nat)
    (h1 : 1 ≤ digits) (h9 : digits ≤ 9) :
    (totpForCounter seed counter digits).length = digits ∧
    ∃ v, v < 10 ^ digits ∧
      totpForCounter seed counter digits =
        padStartString (Nat.repr v) digits '0' :=
  ⟨totpForCounter_length seed counter h1,
   dynamicTruncate (hmacSha256 (deriveKeyBytes seed) (numTo8ByteBE counter))
     % 10 ^ digits,
   Nat.mod_lt _ (pow_pos (by norm_num) digits), rfl⟩

/-- Witness for C7 at `seed = "test-seed"`, `counter = 5`, `digits = 6`. -/
theorem claim7_fixed_width_witness :
    ((1 : Nat) ≤ 6 ∧ (6 : Nat) ≤ 9) ∧
    (totpForCounter "test-seed" 5 6).length = 6 :=
  ⟨⟨by norm_num, by norm_num⟩,
   (claim7_fixed_width "test-seed" 5 6 (by norm_num) (by norm_num)).1⟩

/-- C8: the truncation offset is the low nibble of the last HMAC byte, so it
is at most 15 and every read `mac[offset] .. mac[offset+3]` is at an index
at most 18, strictly inside the 32-byte HMAC-SHA256 output: no access is out
of bounds. -/
theorem claim8_no_out_of_bounds (seed : String) (counter : Int) :
    dtOffset (hmacSha256 (deriveKeyBytes seed) (numTo8ByteBE counter)) ≤ 15 ∧
    dtOffset (hmacSha256 (deriveKeyBytes seed) (numTo8ByteBE counter)) + 3 ≤ 18 ∧
    18 < (hmacSha256 (deriveKeyBytes seed) (numTo8ByteBE counter)).length ∧
    (hmacSha256 (deriveKeyBytes seed) (numTo8ByteBE counter)).length = 32 := by
  have h := dtOffset_le (hmacSha256 (deriveKeyBytes seed) (numTo8ByteBE counter))
  have hl := hmacSha256_length (deriveKeyBytes seed) (numTo8ByteBE counter)
  exact ⟨h, by omega, by omega, hl⟩

/-!
## Ledger lemmas
-/

/-- No row for a key is the same as a negative `SELECT`. -/
theorem countRecords_eq_zero {w : Nat} {sid : String} {db : Ledger} :
    countRecords w sid db = 0 ↔ dbLookup w sid db = false := by
  simp [countRecords, dbLookup, List.length_eq_zero, List.filter_eq_nil_iff,
    List.any_eq_true]

/-- A `SELECT` right after inserting the same key succeeds. -/
theorem dbLookup_append_self (w : Nat) (sid : String) (t : Nat)
    (db : Ledger) : dbLookup w sid (db ++ [⟨w, sid, t⟩]) = true := by
  simp [dbLookup, List.any_append]

/-- Appending one row adds to the count of its own key only. -/
theorem countRecords_append (w : Nat) (s : String) (db : Ledger)
    (r : UsedCode) :
    countRecords w s (db ++ [r]) =
      countRecords w s db + (if r.window == w && r.sid == s then 1 else 0) := by
  simp only [countRecords, List.filter_append, List.length_append]
  split <;> simp_all

/-- The window reported by `validCodes` is the current window. -/
theorem validCodes_window (cfg : Config) (now : Nat) :
    (validCodes cfg now).window = currentWindow now cfg.stepSeconds := rfl

/-- The expiry reported by `validCodes`. -/
theorem validCodes_expiresIn (cfg : Config) (now : Nat) :
    (validCodes cfg now).expiresIn =
      cfg.stepSeconds - now / 1000 % cfg.stepSeconds := rfl

/-- The accepted list of `validCodes`, spelled out. -/
theorem validCodes_codes (cfg : Config) (now : Nat) :
    (validCodes cfg now).codes =
      [totpForCounter cfg.seed
          ((currentWindow now cfg.stepSeconds : Int) - cfg.driftSteps),
       totpForCounter cfg.seed (currentWindow now cfg.stepSeconds : Int),
       totpForCounter cfg.seed
          ((currentWindow now cfg.stepSeconds : Int) + cfg.driftSteps)] := rfl

/-!
## Claims about the verify handler
-/

/-- C4 (counterexample): `"0000000"` is not a numeric string of width 6
(it has 7 characters), yet `verify` does not return `InvalidInput` for it:
the submission passes the `length < 6` boundary check and is rejected only
later as `InvalidCode`. -/
theorem claim4_counterexample :
    (verify ⟨"test-seed", 30, 1⟩ [] "s" "0000000" 150000).1 =
        .invalidCode 5 30 ∧
    (verify ⟨"test-seed", 30, 1⟩ [] "s" "0000000" 150000).1 ≠
        .invalidInput := by
  constructor
  · decide
  · decide

/-- C4 (amended): `verify` returns `InvalidInput` exactly when the submitted
string is shorter than 6 characters; digits-only well-formedness and exact
width are not checked, so longer or non-numeric strings proceed to the
replay and code-set checks. -/
theorem claim4_input_validation (cfg : Config) (db : Ledger)
    (sid code : String) (now : Nat) :
    (verify cfg db sid code now).1 = .invalidInput ↔ code.length < 6 := by
  simp only [verify]
  split_ifs <;> simp_all

/-- Witness for the amended C4: a 5-character submission is rejected as
`InvalidInput` without touching anything else. -/
theorem claim4_input_validation_witness :
    (verify ⟨"test-seed", 30, 1⟩ [] "s" "12345" 150000).1 =
      Outcome.invalidInput :=
  (claim4_input_validation ⟨"test-seed", 30, 1⟩ [] "s" "12345" 150000).mpr
    (by decide)

/-- C9: a row is created only by a successful verification.  Every `verify`
call either leaves the table unchanged or appends exactly the one row for
the current window; and whenever the outcome is not `Accepted`, the table
is exactly unchanged.  Existing rows are never updated or deleted. -/
theorem claim9_record_only_on_success (cfg : Config) (db : Ledger)
    (sid code : String) (now : Nat) :
    ((∀ w e, (verify cfg db sid code now).1 ≠ .accepted w e) →
        (verify cfg db sid code now).2 = db) ∧
    ((verify cfg db sid code now).2 = db ∨
      (verify cfg db sid code now).2 =
        db ++ [⟨currentWindow now cfg.stepSeconds, sid, now⟩]) := by
  simp only [verify]
  split_ifs with h1 h2 h3 h4
  · exact ⟨fun _ => rfl, Or.inl rfl⟩
  · exact ⟨fun _ => rfl, Or.inl rfl⟩
  · exact ⟨fun _ => rfl, Or.inl rfl⟩
  · exact ⟨fun h => absurd rfl (h _ _), Or.inr (if_neg h3)⟩
  · exact ⟨fun _ => rfl, Or.inl rfl⟩

/-- Witness for C9: a rejected submission leaves the table unchanged. -/
theorem claim9_record_only_on_success_witness :
    (verify ⟨"test-seed", 30, 1⟩ [] "s" "abc" 150000).2 = [] :=
  (claim9_record_only_on_success ⟨"test-seed", 30, 1⟩ [] "s" "abc"
    150000).1 (by
      intro w e hcontra
      have hout : (verify ⟨"test-seed", 30, 1⟩ [] "s" "abc" 150000).1 =
          .invalidInput := by decide
      rw [hout] at hcontra
      exact Outcome.noConfusion hcontra)

/-- C6: both the replay lookup and any created row use the key of the
*current* window `currentWindow(now)`: the outcome depends on the table only
through the presence of the `(currentWindow, sid)` row (so no entry is read
under a neighboring window's key), and the only possible write is the row
`(currentWindow, sid, now)` (so none is written under one). -/
theorem claim6_replay_key_is_current_window (cfg : Config) (db : Ledger)
    (sid code : String) (now : Nat) :
    ((verify cfg db sid code now).2 = db ∨
      (verify cfg db sid code now).2 =
        insertOrIgnore ⟨currentWindow now cfg.stepSeconds, sid, now⟩ db) ∧
    (∀ db2 : Ledger,
      dbLookup (currentWindow now cfg.stepSeconds) sid db =
        dbLookup (currentWindow now cfg.stepSeconds) sid db2 →
      (verify cfg db sid code now).1 = (verify cfg db2 sid code now).1) := by
  constructor
  · simp only [verify]
    split_ifs <;> first
      | exact Or.inl rfl
      | exact Or.inr rfl
  · intro db2 hdb2
    have hdb2' : dbLookup (validCodes cfg now).window sid db =
        dbLookup (validCodes cfg now).window sid db2 := hdb2
    simp only [verify]
    rw [hdb2']
    split_ifs <;> rfl

/-- Witness for C6 at a concrete state: a table holding only foreign keys
verifies exactly like the empty table. -/
theorem claim6_replay_key_is_current_window_witness :
    (verify ⟨"test-seed", 30, 1⟩ [] "s" "709293" 150000).1 =
      (verify ⟨"test-seed", 30, 1⟩ [⟨99, "other", 0⟩] "s" "709293" 150000).1 :=
  (claim6_replay_key_is_current_window ⟨"test-seed", 30, 1⟩ [] "s" "709293"
    150000).2 [⟨99, "other", 0⟩] (by decide)

/-- C3 (counterexample): with configured drift 2 at a time in window 5, the
code of window 6 — which lies inside `[window - drift, window + drift]` — is
not in the accepted set: the implementation only accepts the three counters
`window - drift`, `window`, `window + drift`, not all `2*drift + 1`
consecutive windows. -/
theorem claim3_counterexample :
    (validCodes ⟨"test-seed", 30, 2⟩ 150000).window = 5 ∧
    totpForCounter "test-seed" 6 ∉ (validCodes ⟨"test-seed", 30, 2⟩ 150000).codes := by
  constructor
  · rfl
  · decide

/-- C3 (amended): the accepted set is exactly the three codes of counters
`window - drift`, `window`, `window + drift`; when `drift ≤ 1` (as in the
default configuration) this does contain the codes of all `2*drift + 1`
consecutive windows in `[window - drift, window + drift]`. -/
theorem claim3_accepted_set (cfg : Config) (now : Nat) :
    ((validCodes cfg now).codes =
      [totpForCounter cfg.seed
          ((currentWindow now cfg.stepSeconds : Int) - cfg.driftSteps),
       totpForCounter cfg.seed (currentWindow now cfg.stepSeconds : Int),
       totpForCounter cfg.seed
          ((currentWindow now cfg.stepSeconds : Int) + cfg.driftSteps)]) ∧
    (cfg.driftSteps ≤ 1 → ∀ c : Int,
      (currentWindow now cfg.stepSeconds : Int) - cfg.driftSteps ≤ c →
      c ≤ (currentWindow now cfg.stepSeconds : Int) + cfg.driftSteps →
      totpForCounter cfg.seed c ∈ (validCodes cfg now).codes) := by
  refine ⟨rfl, fun hd c hlo hhi => ?_⟩
  rw [validCodes_codes]
  interval_cases hdrift : cfg.driftSteps
  · have : c = (currentWindow now cfg.stepSeconds : Int) := by omega
    subst this
    simp
  · have : c = (currentWindow now cfg.stepSeconds : Int) - 1 ∨
        c = (currentWindow now cfg.stepSeconds : Int) ∨
        c = (currentWindow now cfg.stepSeconds : Int) + 1 := by omega
    rcases this with h | h | h <;> subst h <;> simp

/-- Witness for the amended C3: with the default drift 1, the code of the
previous window is in the accepted set. -/
theorem claim3_accepted_set_witness :
    totpForCounter "test-seed" 4 ∈ (validCodes ⟨"test-seed", 30, 1⟩ 150000).codes :=
  (claim3_accepted_set ⟨"test-seed", 30, 1⟩ 150000).2 (by decide) 4
    (by decide) (by decide)

/-- C1: for a fresh `(window, session)` pair and a code in the accepted set,
`verify` accepts and creates exactly one row for the pair; any later call for
the same session at a time still in the same window answers `AlreadyUsed`
and changes nothing; and at most one row ever exists per `(window, session)`
pair. -/
theorem claim1_single_consumption (cfg : Config) (db : Ledger)
    (sid code code2 : String) (now now2 : Nat)
    (hseed : cfg.seed ≠ "")
    (hfresh : countRecords (currentWindow now cfg.stepSeconds) sid db = 0)
    (hcode : code ∈ (validCodes cfg now).codes)
    (hsame : currentWindow now2 cfg.stepSeconds = currentWindow now cfg.stepSeconds)
    (hlen2 : ¬ code2.length < 6)
    (hinv : ∀ w s, countRecords w s db ≤ 1) :
    (verify cfg db sid code now).1 =
      .accepted (currentWindow now cfg.stepSeconds)
        ((validCodes cfg now).expiresIn) ∧
    countRecords (currentWindow now cfg.stepSeconds) sid
      (verify cfg db sid code now).2 = 1 ∧
    (verify cfg (verify cfg db sid code now).2 sid code2 now2).1 =
      .alreadyUsed (currentWindow now2 cfg.stepSeconds)
        ((validCodes cfg now2).expiresIn) ∧
    (verify cfg (verify cfg db sid code now).2 sid code2 now2).2 =
      (verify cfg db sid code now).2 ∧
    (∀ w s, countRecords w s (verify cfg db sid code now).2 ≤ 1) := by
  have hlen : code.length = 6 := by
    rw [validCodes_codes] at hcode
    simp only [List.mem_cons, List.not_mem_nil, or_false] at hcode
    rcases hcode with h | h | h <;>
      (subst h; exact totpForCounter_length _ _ (by norm_num))
  have hnlt : ¬ code.length < 6 := by omega
  have hlook : dbLookup (currentWindow now cfg.stepSeconds) sid db = false :=
    countRecords_eq_zero.mp hfresh
  have hlook' : ¬ dbLookup (currentWindow now cfg.stepSeconds) sid db = true := by
    simp [hlook]
  have hcontains : (validCodes cfg now).codes.contains code = true :=
    List.elem_iff.mpr hcode
  have happend : insertOrIgnore
      ⟨currentWindow now cfg.stepSeconds, sid, now⟩ db =
      db ++ [⟨currentWindow now cfg.stepSeconds, sid, now⟩] := if_neg hlook'
  have hverify : verify cfg db sid code now =
      (.accepted (currentWindow now cfg.stepSeconds)
        ((validCodes cfg now).expiresIn),
       db ++ [⟨currentWindow now cfg.stepSeconds, sid, now⟩]) := by
    simp only [verify, if_neg hnlt, if_neg hseed, validCodes_window,
      if_neg hlook', if_pos hcontains, happend]
  have hlookup2 : dbLookup (currentWindow now2 cfg.stepSeconds) sid
      (db ++ [⟨currentWindow now cfg.stepSeconds, sid, now⟩]) = true := by
    rw [hsame]
    exact dbLookup_append_self _ _ _ _
  refine ⟨by rw [hverify], ?_, ?_, ?_, ?_⟩
  · rw [hverify]
    show countRecords _ _ (db ++ [_]) = 1
    rw [countRecords_append, hfresh]
    simp
  · rw [hverify]
    show (verify _ (db ++ [_]) _ _ _).1 = _
    simp only [verify, if_neg hlen2, if_neg hseed, validCodes_window,
      if_pos hlookup2]
  · rw [hverify]
    show (verify _ (db ++ [_]) _ _ _).2 = _
    simp only [verify, if_neg hlen2, if_neg hseed, validCodes_window,
      if_pos hlookup2]
  · rw [hverify]
    intro w s
    show countRecords _ _ (db ++ [_]) ≤ 1
    rw [countRecords_append]
    by_cases hkey : ((currentWindow now cfg.stepSeconds : Nat) == w &&
        sid == s) = true
    · have hws : currentWindow now cfg.stepSeconds = w ∧ sid = s := by
        simpa using hkey
      rw [hkey, ← hws.1, ← hws.2, hfresh]
      simp
    · rw [Bool.eq_false_iff.mpr hkey]
      simpa using hinv w s

/-- Witness for C1: session `"alice"`, the current window's code, time in
window 5; the first call accepts, the immediate second call answers
`AlreadyUsed`. -/
theorem claim1_single_consumption_witness :
    (verify ⟨"test-seed", 30, 1⟩ [] "alice" "709293" 150000).1 =
        .accepted 5 30 ∧
    (verify ⟨"test-seed", 30, 1⟩
        (verify ⟨"test-seed", 30, 1⟩ [] "alice" "709293" 150000).2
        "alice" "709293" 150000).1 = .alreadyUsed 5 30 :=
  ⟨(claim1_single_consumption ⟨"test-seed", 30, 1⟩ [] "alice" "709293"
      "709293" 150000 150000 (by decide) (by decide) (by decide) rfl
      (by decide) (fun _ _ => Nat.zero_le 1)).1,
   (claim1_single_consumption ⟨"test-seed", 30, 1⟩ [] "alice" "709293"
      "709293" 150000 150000 (by decide) (by decide) (by decide) rfl
      (by decide) (fun _ _ => Nat.zero_le 1)).2.2.1⟩

/-- C10: whenever `verify` accepts, the submitted string is one of the three
generated codes — `computeCode` at counter `window - drift`, `window` or
`window + drift` for the current window — and in particular has exactly 6
characters, even though the boundary check admits any string of length at
least 6. -/
theorem claim10_acceptance_soundness (cfg : Config) (db : Ledger)
    (sid code : String) (now : Nat) (w e : Nat)
    (hacc : (verify cfg db sid code now).1 = .accepted w e) :
    w = currentWindow now cfg.stepSeconds ∧
    ∃ c : Int,
      (c = (currentWindow now cfg.stepSeconds : Int) - cfg.driftSteps ∨
       c = (currentWindow now cfg.stepSeconds : Int) ∨
       c = (currentWindow now cfg.stepSeconds : Int) + cfg.driftSteps) ∧
      code = totpForCounter cfg.seed c ∧ code.length = 6 := by
  revert hacc
  simp only [verify]
  split_ifs with h1 h2 h3 h4
  · intro h
    exact absurd h (by simp)
  · intro h
    exact absurd h (by simp)
  · intro h
    exact absurd h (by simp)
  · intro h
    have h' : Outcome.accepted (validCodes cfg now).window
        (validCodes cfg now).expiresIn = .accepted w e := h
    injection h' with hwin hexp
    have hw : w = currentWindow now cfg.stepSeconds := by
      rw [← hwin, validCodes_window]
    have hmem : code ∈ (validCodes cfg now).codes := List.elem_iff.mp h4
    rw [validCodes_codes] at hmem
    simp only [List.mem_cons, List.not_mem_nil, or_false] at hmem
    refine ⟨hw, ?_⟩
    rcases hmem with hc | hc | hc
    · exact ⟨_, Or.inl rfl, hc,
        by rw [hc]; exact totpForCounter_length _ _ (by norm_num)⟩
    · exact ⟨_, Or.inr (Or.inl rfl), hc,
        by rw [hc]; exact totpForCounter_length _ _ (by norm_num)⟩
    · exact ⟨_, Or.inr (Or.inr rfl), hc,
        by rw [hc]; exact totpForCounter_length _ _ (by norm_num)⟩
  · intro h
    exact absurd h (by simp)

/-- Witness for C10: an accepted call did submit one of the three generated
codes. -/
theorem claim10_acceptance_soundness_witness :
    ∃ c : Int,
      (c = (5 : Int) - 1 ∨ c = (5 : Int) ∨ c = (5 : Int) + 1) ∧
      "709293" = totpForCounter "test-seed" c ∧
      ("709293" : String).length = 6 :=
  (claim10_acceptance_soundness ⟨"test-seed", 30, 1⟩ [] "bob" "709293"
    150000 5 30 (by decide)).2

/-- C2 (counterexample): the handler's `SELECT` and `INSERT OR IGNORE` are
two separate database operations, and the insert's result is never
consulted.  Interleaving two calls for the same fresh `(window, session)`
pair as SELECT-1, SELECT-2, INSERT-1, INSERT-2 makes *both* return
`Accepted` (the table still ends up with a single row): it is not the case
that exactly one returns `Accepted` and the other `AlreadyUsed`. -/
theorem claim2_counterexample :
    runSched ⟨"test-seed", 30, 1⟩ ⟨"s", "709293", 150000⟩
        ⟨"s", "709293", 150000⟩ [false, true, false, true]
        ⟨.pending, .pending, []⟩ =
      ⟨.responded (.accepted 5 30), .responded (.accepted 5 30),
       [⟨5, "s", 150000⟩]⟩ := by
  decide

/-- C2 (amended): the handler performs a separate replay read followed by an
`INSERT OR IGNORE` whose boolean result is ignored — not an atomic
check-and-set.  The primary key still limits the table to one row per pair;
when the two calls' database operations run serially, exactly one call
returns `Accepted` and the other `AlreadyUsed`, but when both reads precede
both writes, the two calls both return `Accepted` (with one row created). -/
theorem claim2_read_then_write (cfg : Config) (db : Ledger) (ctx : CallCtx)
    (hlen : ¬ ctx.code.length < 6) (hseed : ¬ cfg.seed = "")
    (hfresh : dbLookup (currentWindow ctx.now cfg.stepSeconds) ctx.sid db = false)
    (hmem : ctx.code ∈ (validCodes cfg ctx.now).codes) :
    (runSched cfg ctx ctx [false, false, true, true] ⟨.pending, .pending, db⟩ =
      ⟨.responded (.accepted (currentWindow ctx.now cfg.stepSeconds)
          ((validCodes cfg ctx.now).expiresIn)),
       .responded (.alreadyUsed (currentWindow ctx.now cfg.stepSeconds)
          ((validCodes cfg ctx.now).expiresIn)),
       db ++ [⟨currentWindow ctx.now cfg.stepSeconds, ctx.sid, ctx.now⟩]⟩) ∧
    (runSched cfg ctx ctx [false, true, false, true] ⟨.pending, .pending, db⟩ =
      ⟨.responded (.accepted (currentWindow ctx.now cfg.stepSeconds)
          ((validCodes cfg ctx.now).expiresIn)),
       .responded (.accepted (currentWindow ctx.now cfg.stepSeconds)
          ((validCodes cfg ctx.now).expiresIn)),
       db ++ [⟨currentWindow ctx.now cfg.stepSeconds, ctx.sid, ctx.now⟩]⟩) := by
  have hcontains : (validCodes cfg ctx.now).codes.contains ctx.code = true :=
    List.elem_iff.mpr hmem
  have hlook' : ¬ dbLookup (currentWindow ctx.now cfg.stepSeconds)
      ctx.sid db = true := by
    simp [hfresh]
  have s1 : callStep cfg ctx .pending db = (.checked false, db) := by
    simp only [callStep, if_neg hlen, if_neg hseed, validCodes_window, hfresh]
  have s2 : callStep cfg ctx (.checked false) db =
      (.responded (.accepted (currentWindow ctx.now cfg.stepSeconds)
        ((validCodes cfg ctx.now).expiresIn)),
       db ++ [⟨currentWindow ctx.now cfg.stepSeconds, ctx.sid, ctx.now⟩]) := by
    simp [callStep, hcontains, hmem, validCodes_window, insertOrIgnore, hlook']
  have s3 : callStep cfg ctx .pending
      (db ++ [⟨currentWindow ctx.now cfg.stepSeconds, ctx.sid, ctx.now⟩]) =
      (.checked true,
       db ++ [⟨currentWindow ctx.now cfg.stepSeconds, ctx.sid, ctx.now⟩]) := by
    simp [callStep, if_neg hlen, if_neg hseed, validCodes_window,
      dbLookup_append_self]
  have s4 : callStep cfg ctx (.checked true)
      (db ++ [⟨currentWindow ctx.now cfg.stepSeconds, ctx.sid, ctx.now⟩]) =
      (.responded (.alreadyUsed (currentWindow ctx.now cfg.stepSeconds)
        ((validCodes cfg ctx.now).expiresIn)),
       db ++ [⟨currentWindow ctx.now cfg.stepSeconds, ctx.sid, ctx.now⟩]) := by
    simp [callStep, validCodes_window]
  have s5 : callStep cfg ctx (.checked false)
      (db ++ [⟨currentWindow ctx.now cfg.stepSeconds, ctx.sid, ctx.now⟩]) =
      (.responded (.accepted (currentWindow ctx.now cfg.stepSeconds)
        ((validCodes cfg ctx.now).expiresIn)),
       db ++ [⟨currentWindow ctx.now cfg.stepSeconds, ctx.sid, ctx.now⟩]) := by
    simp [callStep, hcontains, hmem, validCodes_window, insertOrIgnore,
      dbLookup_append_self]
  constructor
  · simp [runSched, s1, s2, s3, s4]
  · simp [runSched, s1, s2, s5]

/-- Witness for the amended C2: a serialized two-call run at concrete
inputs, with exactly one `Accepted`. -/
theorem claim2_read_then_write_witness :
    runSched ⟨"test-seed", 30, 1⟩ ⟨"carol", "709293", 150000⟩
        ⟨"carol", "709293", 150000⟩ [false, false, true, true]
        ⟨.pending, .pending, []⟩ =
      ⟨.responded (.accepted 5 30), .responded (.alreadyUsed 5 30),
       [⟨5, "carol", 150000⟩]⟩ :=
  (claim2_read_then_write ⟨"test-seed", 30, 1⟩ [] ⟨"carol", "709293", 150000⟩
    (by decide) (by decide) (by decide) (by decide)).1

end Aet
